import Mathlib

/-!
# Verification of the Hellas Fraud Game simulation engine

Shallow embedding of `src/webapp/src/lib/simulation.ts` (the Hellas
Parameters Simulator).  JavaScript `number` arithmetic is modelled by exact
rationals (`ℚ`): every constant appearing in the source is a finite decimal,
so all formulas are exact in this model; IEEE-754 rounding is abstracted
away.  The one place where the zero-denominator behaviour of JavaScript
division is itself under scrutiny (`computeTheta` with `P_set + S_P = 0`)
is modelled separately with an explicit value type (`JSNum`) carrying the
signed infinities and NaN that JavaScript division produces.

All definitions follow the TypeScript source line by line; names are kept
where Lean allows it.
-/

/-- The protocol parameter record (`ProtocolParams` in `simulation.ts`). -/
structure ProtocolParams where
  S_P : ℚ       -- Provider stake
  P_set : ℚ     -- Settlement payment
  c_H : ℚ       -- Honest execution cost
  c_F : ℚ       -- Cheating cost
  C_safe : ℚ    -- Safe fallback cost
  c_proof : ℚ   -- Proof generation cost
  c_tx : ℚ      -- Transaction cost
  beta : ℚ      -- Slash reward fraction
  lambda : ℚ    -- Payment routing fraction
  p_w : ℚ       -- Enforcement probability
  B_C : ℚ       -- Challenge bond
  L : ℚ         -- Client loss from incorrect result
  v_min : ℚ     -- Minimum audit probability (random audit floor)
deriving DecidableEq

/-- `DEFAULT_PARAMS` from `simulation.ts`. -/
def DEFAULT_PARAMS : ProtocolParams :=
  { S_P := 100
    P_set := 50
    c_H := 5
    c_F := 0.5
    C_safe := 8
    c_proof := 2
    c_tx := 1
    beta := 0.5
    lambda := 1
    p_w := 0.95
    B_C := 5
    L := 50
    v_min := 0.02 }

/-- Net dispute surplus: `Δ = p_w(β·S_P + λ·P_set) - (c_proof + c_tx) - (1-p_w)·B_C`. -/
def computeDelta (params : ProtocolParams) : ℚ :=
  params.p_w * (params.beta * params.S_P + params.lambda * params.P_set)
    - (params.c_proof + params.c_tx) - (1 - params.p_w) * params.B_C

/-- Provider incentive threshold: `θ = (c_H - c_F) / (P_set + S_P)`. -/
def computeTheta (params : ProtocolParams) : ℚ :=
  (params.c_H - params.c_F) / (params.P_set + params.S_P)

/-- Minimum viable stake:
`S_P^min = max(0, (C_disp + (1-p_w)·B_C - p_w·λ·P_set) / (p_w·β))` with
`C_disp = C_safe + c_proof + c_tx`. -/
def computeMinViableStake (params : ProtocolParams) : ℚ :=
  let C_disp := params.C_safe + params.c_proof + params.c_tx
  let numerator := C_disp + (1 - params.p_w) * params.B_C - params.p_w * params.lambda * params.P_set
  let denominator := params.p_w * params.beta
  max 0 (numerator / denominator)

/-- Equilibrium audit probability `v*`; the source returns `computeTheta(params)`. -/
def computeVStar (params : ProtocolParams) : ℚ :=
  computeTheta params

/-- Equilibrium cheating probability
`q* = 1` when `L + Δ ≤ 0`, else `min(1, C_safe / (L + Δ))`. -/
def computeQStar (params : ProtocolParams) : ℚ :=
  let Delta := computeDelta params
  if params.L + Delta ≤ 0 then 1
  else min 1 (params.C_safe / (params.L + Delta))

/-- The record returned by `computeEquilibrium` (`EquilibriumValues` in the source).
The two viability flags are booleans, as in the source. -/
structure EquilibriumValues where
  v_star : ℚ
  q_star : ℚ
  theta : ℚ
  Delta : ℚ
  S_P_min : ℚ
  mu_star : ℚ
  isEnforcementViable : Bool
  isICsatisfied : Bool
  expectedProviderUtility : ℚ
  expectedClientUtility : ℚ
deriving DecidableEq

/-- `computeEquilibrium` from `simulation.ts`: composes the solver functions and
sets the two boolean flags and the expected utilities. -/
def computeEquilibrium (params : ProtocolParams) : EquilibriumValues :=
  let v_star := computeVStar params
  let q_star := computeQStar params
  let theta := computeTheta params
  let Delta := computeDelta params
  let S_P_min := computeMinViableStake params
  let mu_star := q_star   -- "Same formula at equilibrium" (source comment)
  let isEnforcementViable := decide (params.S_P ≥ S_P_min)
  let isICsatisfied := decide (v_star ≥ theta)
  let expectedProviderUtility := params.P_set - params.c_H
  let expectedClientUtility :=
    -params.P_set
      - v_star * params.C_safe
      - (1 - v_star) * q_star * params.L
      + v_star * q_star * Delta
  { v_star := v_star
    q_star := q_star
    theta := theta
    Delta := Delta
    S_P_min := S_P_min
    mu_star := mu_star
    isEnforcementViable := isEnforcementViable
    isICsatisfied := isICsatisfied
    expectedProviderUtility := expectedProviderUtility
    expectedClientUtility := expectedClientUtility }

/-!
## JavaScript division at a vanishing denominator

`computeTheta` divides by `P_set + S_P`.  Over `ℚ` that division is total
(`x / 0 = 0`), which does not match what the JavaScript engine does, so the
zero-denominator edge is modelled explicitly: `a / 0` in IEEE-754 (and hence
in JavaScript) is `+Infinity` for `a > 0`, `-Infinity` for `a < 0` and `NaN`
for `a = 0`.  For a non-zero denominator the quotient is modelled exactly.
-/

/-- The value space of a JavaScript `number` as far as `computeTheta`'s
zero-denominator edge is concerned: a finite (exact) rational, a signed
infinity, or NaN. -/
inductive JSNum where
  | num (q : ℚ)
  | posInf
  | negInf
  | nan
deriving DecidableEq

/-- JavaScript division `a / b`: exact for `b ≠ 0`; at `b = 0` it yields a
signed infinity or NaN according to the sign of `a` (IEEE-754, never a crash). -/
def jsDiv (a b : ℚ) : JSNum :=
  if b ≠ 0 then JSNum.num (a / b)
  else if 0 < a then JSNum.posInf
  else if a < 0 then JSNum.negInf
  else JSNum.nan

/-- `computeTheta` with the JavaScript zero-denominator behaviour made explicit. -/
def computeThetaJS (params : ProtocolParams) : JSNum :=
  jsDiv (params.c_H - params.c_F) (params.P_set + params.S_P)

/-!
## Hypothesis bundles

The spec constrains `ProtocolParams` to non-negative fields with the four
probability-like fields in `[0,1]`.  These bundles package those side
conditions for use as theorem hypotheses; they are decidable so concrete
instances discharge by `decide`.
-/

/-- All thirteen parameter fields are non-negative. -/
abbrev NonnegParams (p : ProtocolParams) : Prop :=
  0 ≤ p.S_P ∧ 0 ≤ p.P_set ∧ 0 ≤ p.c_H ∧ 0 ≤ p.c_F ∧ 0 ≤ p.C_safe ∧
  0 ≤ p.c_proof ∧ 0 ≤ p.c_tx ∧ 0 ≤ p.beta ∧ 0 ≤ p.lambda ∧ 0 ≤ p.p_w ∧
  0 ≤ p.B_C ∧ 0 ≤ p.L ∧ 0 ≤ p.v_min

/-- The probability-like fields are at most one. -/
abbrev ProbParams (p : ProtocolParams) : Prop :=
  p.p_w ≤ 1 ∧ p.beta ≤ 1 ∧ p.lambda ≤ 1 ∧ p.v_min ≤ 1

/-!
## Concrete parameter records used as counterexamples and witnesses
-/

/-- Default parameters with a low stake and no settlement payment: enforcement
is not viable there. -/
def lowStakeParams : ProtocolParams :=
  { DEFAULT_PARAMS with S_P := 5, P_set := 0 }

/-- Default parameters with an extreme honest-execution cost: `v*` exceeds one. -/
def highCostParams : ProtocolParams :=
  { DEFAULT_PARAMS with c_H := 300 }

/-- Zero settlement payment and zero stake with the cheating cost above the
honest cost: the θ division hits `(negative) / 0`. -/
def zeroDenomNegParams : ProtocolParams :=
  { DEFAULT_PARAMS with P_set := 0, S_P := 0, c_H := 0 }

/-- Zero settlement payment and zero stake with the default (positive)
cost gap: the θ division hits `(positive) / 0`. -/
def zeroDenomPosParams : ProtocolParams :=
  { DEFAULT_PARAMS with P_set := 0, S_P := 0 }

/-!
## C5 — concrete equilibrium values at the default parameters
-/

/-- C5: with `DEFAULT_PARAMS`, `computeDelta` returns exactly `91.75`,
`computeTheta` returns exactly `0.03`, and `computeQStar` returns exactly
`8 / 141.75`. -/
theorem default_params_equilibrium_values :
    computeDelta DEFAULT_PARAMS = 91.75 ∧
    computeTheta DEFAULT_PARAMS = 0.03 ∧
    computeQStar DEFAULT_PARAMS = 8 / 141.75 := by
  refine ⟨?_, ?_, ?_⟩ <;>
    norm_num [computeDelta, computeTheta, computeQStar, DEFAULT_PARAMS, min_def]

/-!
## C10 — the belief threshold is the cheating probability
-/

/-- C10: for every parameter record, `computeEquilibrium` returns
`mu_star` equal to `q_star`; the belief threshold is never an independent
quantity (the source assigns `mu_star = q_star`). -/
theorem mu_star_eq_q_star (params : ProtocolParams) :
    (computeEquilibrium params).mu_star = (computeEquilibrium params).q_star := rfl

/-!
## C1 — the two viability flags
-/

/-- C1 counterexample: at `lowStakeParams` the claim "`isEnforcementViable`
holds iff `isICsatisfied` holds" fails: `isICsatisfied` is true while
`isEnforcementViable` is false. -/
theorem equilibrium_flags_not_equivalent :
    (computeEquilibrium lowStakeParams).isICsatisfied = true ∧
    (computeEquilibrium lowStakeParams).isEnforcementViable = false := by
  constructor
  · show decide (computeVStar lowStakeParams ≥ computeTheta lowStakeParams) = true
    simp [computeVStar]
  · show decide (lowStakeParams.S_P ≥ computeMinViableStake lowStakeParams) = false
    norm_num [computeMinViableStake, lowStakeParams, DEFAULT_PARAMS, max_def]

/-- C1 amended: on the normal domain (positive θ denominator and positive
`p_w·β`), `isICsatisfied` is identically true — the source sets `v_star` to
`computeTheta`, so the comparison `v_star ≥ theta` is reflexive — while
`isEnforcementViable` holds exactly when `S_P ≥ S_P^min`; the two flags are
therefore not equivalent in general. -/
theorem equilibrium_flags_characterization (params : ProtocolParams)
    (_hden : 0 < params.P_set + params.S_P)
    (_hpb : 0 < params.p_w * params.beta) :
    (computeEquilibrium params).isICsatisfied = true ∧
    ((computeEquilibrium params).isEnforcementViable = true ↔
      computeMinViableStake params ≤ params.S_P) := by
  constructor
  · show decide (computeVStar params ≥ computeTheta params) = true
    simp [computeVStar]
  · show decide (params.S_P ≥ computeMinViableStake params) = true ↔ _
    simp [ge_iff_le]

/-- Witness for `equilibrium_flags_characterization` at the default parameters. -/
theorem equilibrium_flags_characterization_witness :
    (computeEquilibrium DEFAULT_PARAMS).isICsatisfied = true ∧
    ((computeEquilibrium DEFAULT_PARAMS).isEnforcementViable = true ↔
      computeMinViableStake DEFAULT_PARAMS ≤ DEFAULT_PARAMS.S_P) :=
  equilibrium_flags_characterization DEFAULT_PARAMS
    (by norm_num [DEFAULT_PARAMS]) (by norm_num [DEFAULT_PARAMS])

/-!
## C2 — ranges of `computeQStar` and `computeVStar`
-/

/-- C2 counterexample: `highCostParams` has all fields non-negative and both
denominators positive, yet `computeVStar` exceeds one (the source does not
clamp `v*`). -/
theorem vstar_exceeds_one :
    NonnegParams highCostParams ∧
    0 < highCostParams.P_set + highCostParams.S_P ∧
    0 < highCostParams.L + computeDelta highCostParams ∧
    ¬ computeVStar highCostParams ≤ 1 := by
  refine ⟨?_, ?_, ?_, ?_⟩ <;>
    norm_num [NonnegParams, computeVStar, computeTheta, computeDelta,
      highCostParams, DEFAULT_PARAMS]

/-- C2 amended: with all fields non-negative and both denominators positive,
`computeQStar` always lands in `[0,1]` — under those hypotheses alone; and
`computeVStar` lands in `[0,1]` under the additional (necessary) bounds
`c_F ≤ c_H ≤ c_F + (P_set + S_P)` — without them `v*` is unclamped and
escapes the interval.  The bounds gate only the `v*` conjunct. -/
theorem qstar_vstar_unit_interval (params : ProtocolParams)
    (hnn : NonnegParams params)
    (hden : 0 < params.P_set + params.S_P)
    (hLD : 0 < params.L + computeDelta params) :
    (0 ≤ computeQStar params ∧ computeQStar params ≤ 1) ∧
    (params.c_F ≤ params.c_H →
      params.c_H - params.c_F ≤ params.P_set + params.S_P →
      0 ≤ computeVStar params ∧ computeVStar params ≤ 1) := by
  obtain ⟨-, -, -, -, hCsafe, -⟩ := hnn
  constructor
  · simp only [computeQStar]
    split
    · exact ⟨zero_le_one, le_refl 1⟩
    · constructor
      · exact le_min zero_le_one (div_nonneg hCsafe hLD.le)
      · exact min_le_left 1 _
  · intro hlo hhi
    unfold computeVStar computeTheta
    constructor
    · exact div_nonneg (sub_nonneg.mpr hlo) hden.le
    · exact (div_le_one hden).mpr hhi

/-- Witness for `qstar_vstar_unit_interval` at the default parameters,
discharging the extra bounds of the `v*` conjunct as well. -/
theorem qstar_vstar_unit_interval_witness :
    (0 ≤ computeQStar DEFAULT_PARAMS ∧ computeQStar DEFAULT_PARAMS ≤ 1) ∧
    (0 ≤ computeVStar DEFAULT_PARAMS ∧ computeVStar DEFAULT_PARAMS ≤ 1) :=
  ⟨(qstar_vstar_unit_interval DEFAULT_PARAMS
      (by norm_num [NonnegParams, DEFAULT_PARAMS])
      (by norm_num [DEFAULT_PARAMS])
      (by norm_num [computeDelta, DEFAULT_PARAMS])).1,
   (qstar_vstar_unit_interval DEFAULT_PARAMS
      (by norm_num [NonnegParams, DEFAULT_PARAMS])
      (by norm_num [DEFAULT_PARAMS])
      (by norm_num [computeDelta, DEFAULT_PARAMS])).2
     (by norm_num [DEFAULT_PARAMS])
     (by norm_num [DEFAULT_PARAMS])⟩

/-!
## C3 — `computeTheta` at a vanishing denominator
-/

/-- C3 counterexample: with `P_set + S_P = 0` and `c_H < c_F`, the JavaScript
division returns `-Infinity`, which is neither `+Infinity` nor a NaN-style
domain-error result. -/
theorem computeThetaJS_returns_negInf :
    zeroDenomNegParams.P_set + zeroDenomNegParams.S_P = 0 ∧
    computeThetaJS zeroDenomNegParams = JSNum.negInf ∧
    ¬ (computeThetaJS zeroDenomNegParams = JSNum.posInf ∨
       computeThetaJS zeroDenomNegParams = JSNum.nan) := by
  refine ⟨?_, ?_, ?_⟩
  · norm_num [zeroDenomNegParams, DEFAULT_PARAMS]
  · norm_num [computeThetaJS, jsDiv, zeroDenomNegParams, DEFAULT_PARAMS]
  · norm_num [computeThetaJS, jsDiv, zeroDenomNegParams, DEFAULT_PARAMS]
    exact ⟨by decide, by decide⟩

/-- C3 amended: `computeTheta` never crashes at a vanishing denominator — the
JavaScript division is total — but the value it returns is a trichotomy on the
sign of `c_H - c_F`: `+Infinity` when `c_H > c_F`, `-Infinity` when
`c_H < c_F`, and `NaN` when they are equal. -/
theorem computeThetaJS_zero_denom_trichotomy (params : ProtocolParams)
    (h : params.P_set + params.S_P = 0) :
    computeThetaJS params =
      (if params.c_F < params.c_H then JSNum.posInf
       else if params.c_H < params.c_F then JSNum.negInf
       else JSNum.nan) := by
  unfold computeThetaJS jsDiv
  rw [h]
  simp only [ne_eq, not_true_eq_false, if_false, sub_pos, sub_neg]

/-- Witness for `computeThetaJS_zero_denom_trichotomy`: at
`zeroDenomPosParams` (cost gap positive) the result is `+Infinity`. -/
theorem computeThetaJS_zero_denom_trichotomy_witness :
    computeThetaJS zeroDenomPosParams = JSNum.posInf := by
  have h := computeThetaJS_zero_denom_trichotomy zeroDenomPosParams
    (by norm_num [zeroDenomPosParams, DEFAULT_PARAMS])
  rw [h]
  norm_num [zeroDenomPosParams, DEFAULT_PARAMS]

/-!
## The simulation engine

`runSimulation` uses, besides the arithmetic already modelled, two ambient
primitives of the JavaScript runtime: `Math.exp` (for the reputation factor
of a rational provider) and `Math.sqrt` (for the dampened adaptive-audit
response).  Neither is code of this repository; they are passed to the
embedding as an explicit `MathPrims` record, and every universally
quantified theorem below holds for all values of these primitives.  For the
concrete runs used in counterexamples and witnesses both are instantiated
with the identity function; in those runs `exp` is never invoked (the single
job is of the honest type) and `sqrt` is only invoked at `0`, where the
identity agrees with the real square root.
-/

/-- The ambient `Math.exp` / `Math.sqrt` primitives of the JavaScript runtime. -/
structure MathPrims where
  exp : ℚ → ℚ
  sqrt : ℚ → ℚ

/-- Instantiation of the ambient primitives used for concrete runs; see the
section comment above for why it is adequate there. -/
def mathId : MathPrims :=
  { exp := id, sqrt := id }

/-- One step of `SeededRandom`: `seed = (seed * 1103515245 + 12345) & 0x7fffffff`.
For an exact integer seed the JavaScript bit-and with `0x7fffffff` (via
`ToInt32`) is reduction modulo `2^31`; `Int.emod` with a positive modulus is
non-negative, matching the sign behaviour of the JavaScript operator. -/
def rngNextSeed (s : ℤ) : ℤ :=
  (s * 1103515245 + 12345) % 2147483648

/-- The value `SeededRandom.next` returns after updating: `seed / 0x7fffffff`. -/
def rngVal (s : ℤ) : ℚ :=
  (s : ℚ) / 2147483647

/-- The record returned by `runSimulation` (`SimulationResult` in the source). -/
structure SimulationResult where
  periods : List ℚ
  fraudRates : List ℚ
  detectionRates : List ℚ
  auditRates : List ℚ
  reputationHistory : List ℚ
  providerProfits : List ℚ
  clientLosses : List ℚ
  cumulativeWelfare : List ℚ
  totalJobs : ℕ
  totalFrauds : ℕ
  totalDetected : ℕ
  finalFraudRate : ℚ
  finalDetectionRate : ℚ
  socialWelfare : ℚ
deriving DecidableEq

/-- The mutable locals of `runSimulation` that live across periods and are
touched by the inner (per-job) loop: the RNG seed, the three counters and the
average reputation. -/
structure InnerState where
  seed : ℤ
  totalJobs : ℕ
  totalFrauds : ℕ
  totalDetected : ℕ
  avgReputation : ℚ
deriving DecidableEq

/-- The per-period accumulators declared at the top of the period loop. -/
structure PeriodAcc where
  periodFrauds : ℕ
  periodDetected : ℕ
  periodAudits : ℕ
  periodProviderProfit : ℚ
  periodClientLoss : ℚ
deriving DecidableEq

/-- The accumulators start each period at zero. -/
def initAcc : PeriodAcc :=
  { periodFrauds := 0, periodDetected := 0, periodAudits := 0,
    periodProviderProfit := 0, periodClientLoss := 0 }

/-- The full cross-period state of `runSimulation`: the inner state, the
sliding fraud window, the adaptive audit probability, the two cumulative
sums, and the eight output series built up so far. -/
structure SimState where
  inner : InnerState
  recentFraudRates : List ℚ
  adaptiveAuditProb : ℚ
  cumProviderProfit : ℚ
  cumClientLoss : ℚ
  periods : List ℚ
  fraudRates : List ℚ
  detectionRates : List ℚ
  auditRates : List ℚ
  reputationHistory : List ℚ
  providerProfits : List ℚ
  clientLosses : List ℚ
  cumulativeWelfare : List ℚ

/-- The body of the inner (per-job) loop of `runSimulation`.  The adaptive
audit probability is read-only during a period and is passed as an argument;
the RNG is threaded through the decisions exactly as the source consumes it:
one draw for the provider type, at most one for the cheat decision, at most
one for the audit decision, at most one for the dispute outcome. -/
def jobStep (M : MathPrims) (params : ProtocolParams) (eq : EquilibriumValues)
    (honestFraction adaptiveAuditProb : ℚ)
    (s : InnerState × PeriodAcc) : InnerState × PeriodAcc :=
  let st := s.1
  let acc := s.2
  let totalJobs := st.totalJobs + 1
  let s1 := rngNextSeed st.seed
  let isHonestType := rngVal s1 < honestFraction
  -- Provider decision (rational providers estimate the audit probability)
  let cheatDecision : Bool × ℤ :=
    if isHonestType then (false, s1)
    else
      let reputationFactor := M.exp (-0.01 * (st.avgReputation - 50))
      let estimatedAuditProb := adaptiveAuditProb * reputationFactor
      let U_honest := params.P_set - params.c_H
      let U_cheat := params.P_set - params.c_F - estimatedAuditProb * (params.P_set + params.S_P)
      let utilityDiff := U_cheat - U_honest
      if utilityDiff > 1 then
        -- Clear advantage to cheat: 80% cheat
        let s2 := rngNextSeed s1
        (decide (rngVal s2 > 0.2), s2)
      else if utilityDiff > -1 then
        -- Utilities close: play mixed strategy near q*
        let s2 := rngNextSeed s1
        (decide (rngVal s2 < eq.q_star), s2)
      else
        (false, s1)
  let cheats := cheatDecision.1
  let s2 := cheatDecision.2
  if cheats then
    let effectiveAuditProb := max params.v_min adaptiveAuditProb
    let s3 := rngNextSeed s2
    let audits := rngVal s3 < effectiveAuditProb
    if audits then
      let s4 := rngNextSeed s3
      if rngVal s4 < params.p_w then
        -- Successful dispute
        let reward := params.beta * params.S_P + params.lambda * params.P_set
        ({ seed := s4, totalJobs := totalJobs, totalFrauds := st.totalFrauds + 1,
           totalDetected := st.totalDetected + 1,
           avgReputation := max 0 (st.avgReputation - 5) },
         { periodFrauds := acc.periodFrauds + 1, periodDetected := acc.periodDetected + 1,
           periodAudits := acc.periodAudits + 1,
           periodProviderProfit := acc.periodProviderProfit - params.S_P,
           periodClientLoss := acc.periodClientLoss
             - (reward - params.C_safe - params.c_proof - params.c_tx) })
      else
        ({ seed := s4, totalJobs := totalJobs, totalFrauds := st.totalFrauds + 1,
           totalDetected := st.totalDetected + 1, avgReputation := st.avgReputation },
         { periodFrauds := acc.periodFrauds + 1, periodDetected := acc.periodDetected + 1,
           periodAudits := acc.periodAudits + 1,
           periodProviderProfit := acc.periodProviderProfit,
           periodClientLoss := acc.periodClientLoss + (params.C_safe + params.B_C) })
    else
      -- Undetected fraud
      ({ seed := s3, totalJobs := totalJobs, totalFrauds := st.totalFrauds + 1,
         totalDetected := st.totalDetected, avgReputation := st.avgReputation },
       { periodFrauds := acc.periodFrauds + 1, periodDetected := acc.periodDetected,
         periodAudits := acc.periodAudits,
         periodProviderProfit := acc.periodProviderProfit + (params.P_set - params.c_F),
         periodClientLoss := acc.periodClientLoss + params.L })
  else
    -- Honest execution
    ({ seed := s2, totalJobs := totalJobs, totalFrauds := st.totalFrauds,
       totalDetected := st.totalDetected,
       avgReputation := min 100 (st.avgReputation + 0.1) },
     { periodFrauds := acc.periodFrauds, periodDetected := acc.periodDetected,
       periodAudits := acc.periodAudits,
       periodProviderProfit := acc.periodProviderProfit + (params.P_set - params.c_H),
       periodClientLoss := acc.periodClientLoss })

/-- The inner loop: `nJobsPerPeriod` iterations of `jobStep`. -/
def runJobs (M : MathPrims) (params : ProtocolParams) (eq : EquilibriumValues)
    (honestFraction adaptiveAuditProb : ℚ) :
    ℕ → InnerState × PeriodAcc → InnerState × PeriodAcc
  | 0, s => s
  | n + 1, s =>
      runJobs M params eq honestFraction adaptiveAuditProb n
        (jobStep M params eq honestFraction adaptiveAuditProb s)

/-- `recentWindowSize = 5` — periods considered for fraud estimation. -/
def recentWindowSize : ℕ := 5

/-- Push the period's fraud rate into the sliding window and drop the oldest
entry when the window exceeds `recentWindowSize` (`push` then `shift`). -/
def slideWindow (w : List ℚ) (x : ℚ) : List ℚ :=
  let w0 := w ++ [x]
  if w0.length > recentWindowSize then w0.drop 1 else w0

/-- End-of-period adaptive-audit update: mean observed fraud over the window,
ratio to `q*` (guarding `q* = 0`), dampened square-root response scaled by
`v*`, exponential smoothing with learning rate `0.3`, then clamping to
`[v_min, 1]`. -/
def nextAuditProb (M : MathPrims) (params : ProtocolParams) (eq : EquilibriumValues)
    (w : List ℚ) (current : ℚ) : ℚ :=
  let observedFraudRate := w.sum / (w.length : ℚ)
  let fraudRatio := if eq.q_star > 0 then observedFraudRate / eq.q_star else 1
  let targetAuditProb := eq.v_star * M.sqrt fraudRatio
  let learningRate : ℚ := 0.3
  let updated := current + learningRate * (targetAuditProb - current)
  max params.v_min (min 1 updated)

/-- The detection rate recorded for a period: the fraction of the period's
frauds that were detected, or — when the period had no fraud — the previously
recorded rate (`detectionRates[t-1]`, i.e. the last element so far), or the
theoretical `v*` for period 0. -/
def nextDetectionRate (eq : EquilibriumValues) (acc : PeriodAcc)
    (prev : List ℚ) : ℚ :=
  if acc.periodFrauds > 0 then (acc.periodDetected : ℚ) / (acc.periodFrauds : ℚ)
  else
    match prev.getLast? with
    | some d => d
    | none => eq.v_star

/-- The body of the period loop of `runSimulation`: run the jobs, update the
sliding window and the adaptive audit probability, accumulate the sums and
push one element onto each output series.  (The source also binds a local
`Delta = computeDelta(params)` here that it never uses; the dead binding is
omitted.) -/
def periodStep (M : MathPrims) (params : ProtocolParams) (eq : EquilibriumValues)
    (nJobsPerPeriod : ℕ) (honestFraction : ℚ) (st : SimState) : SimState :=
  let t := st.periods.length
  let res := runJobs M params eq honestFraction st.adaptiveAuditProb
    nJobsPerPeriod (st.inner, initAcc)
  let inner := res.1
  let acc := res.2
  let periodFraudRate := (acc.periodFrauds : ℚ) / (nJobsPerPeriod : ℚ)
  let w := slideWindow st.recentFraudRates periodFraudRate
  let newAuditProb := nextAuditProb M params eq w st.adaptiveAuditProb
  let cumProviderProfit := st.cumProviderProfit + acc.periodProviderProfit
  let cumClientLoss := st.cumClientLoss + acc.periodClientLoss
  let detectionRate := nextDetectionRate eq acc st.detectionRates
  { inner := inner
    recentFraudRates := w
    adaptiveAuditProb := newAuditProb
    cumProviderProfit := cumProviderProfit
    cumClientLoss := cumClientLoss
    periods := st.periods ++ [(t : ℚ)]
    fraudRates := st.fraudRates ++ [periodFraudRate]
    detectionRates := st.detectionRates ++ [detectionRate]
    auditRates := st.auditRates ++ [newAuditProb]
    reputationHistory := st.reputationHistory ++ [inner.avgReputation]
    providerProfits := st.providerProfits ++ [cumProviderProfit]
    clientLosses := st.clientLosses ++ [cumClientLoss]
    cumulativeWelfare := st.cumulativeWelfare ++ [cumProviderProfit - cumClientLoss] }

/-- The period loop: `nPeriods` iterations of `periodStep`. -/
def runPeriods (M : MathPrims) (params : ProtocolParams) (eq : EquilibriumValues)
    (nJobsPerPeriod : ℕ) (honestFraction : ℚ) : ℕ → SimState → SimState
  | 0, st => st
  | n + 1, st =>
      runPeriods M params eq nJobsPerPeriod honestFraction n
        (periodStep M params eq nJobsPerPeriod honestFraction st)

/-- The initial state of `runSimulation`: seed from the argument, counters at
zero, reputation 50, empty window and series, adaptive audit probability
started at the equilibrium `v*`. -/
def initState (eq : EquilibriumValues) (seed : ℤ) : SimState :=
  { inner := { seed := seed, totalJobs := 0, totalFrauds := 0, totalDetected := 0,
               avgReputation := 50 }
    recentFraudRates := []
    adaptiveAuditProb := eq.v_star
    cumProviderProfit := 0
    cumClientLoss := 0
    periods := []
    fraudRates := []
    detectionRates := []
    auditRates := []
    reputationHistory := []
    providerProfits := []
    clientLosses := []
    cumulativeWelfare := [] }

/-- `runSimulation` from `simulation.ts` (source defaults: `nPeriods = 100`,
`nJobsPerPeriod = 20`, `honestFraction = 0.6`, `seed = 42`). -/
def runSimulation (M : MathPrims) (params : ProtocolParams)
    (nPeriods nJobsPerPeriod : ℕ) (honestFraction : ℚ) (seed : ℤ) :
    SimulationResult :=
  let eq := computeEquilibrium params
  let st := runPeriods M params eq nJobsPerPeriod honestFraction nPeriods
    (initState eq seed)
  { periods := st.periods
    fraudRates := st.fraudRates
    detectionRates := st.detectionRates
    auditRates := st.auditRates
    reputationHistory := st.reputationHistory
    providerProfits := st.providerProfits
    clientLosses := st.clientLosses
    cumulativeWelfare := st.cumulativeWelfare
    totalJobs := st.inner.totalJobs
    totalFrauds := st.inner.totalFrauds
    totalDetected := st.inner.totalDetected
    finalFraudRate := (st.inner.totalFrauds : ℚ) / (st.inner.totalJobs : ℚ)
    finalDetectionRate :=
      if st.inner.totalFrauds > 0
      then (st.inner.totalDetected : ℚ) / (st.inner.totalFrauds : ℚ)
      else eq.v_star
    socialWelfare := st.cumProviderProfit - st.cumClientLoss }

/-!
## C6 — determinism of `runSimulation`

In the embedding `runSimulation` is a pure function of its argument tuple
(the seeded generator is local state threaded through the loops), so two
calls with identical arguments — including the seed — return identical
results in every series element and every summary scalar.
-/

/-- C6: `runSimulation` is deterministic: identical argument tuples (same
parameters, period and job counts, honest fraction and seed, under the same
runtime math primitives) give identical `SimulationResult`s. -/
theorem runSimulation_deterministic (M : MathPrims)
    (params₁ params₂ : ProtocolParams) (nP₁ nP₂ nJ₁ nJ₂ : ℕ)
    (hf₁ hf₂ : ℚ) (seed₁ seed₂ : ℤ)
    (hp : params₁ = params₂) (hnP : nP₁ = nP₂) (hnJ : nJ₁ = nJ₂)
    (hhf : hf₁ = hf₂) (hs : seed₁ = seed₂) :
    runSimulation M params₁ nP₁ nJ₁ hf₁ seed₁ =
      runSimulation M params₂ nP₂ nJ₂ hf₂ seed₂ := by
  subst hp; subst hnP; subst hnJ; subst hhf; subst hs; rfl

/-- Witness for `runSimulation_deterministic` at a concrete argument tuple. -/
theorem runSimulation_deterministic_witness :
    runSimulation mathId DEFAULT_PARAMS 1 1 0.6 42 =
      runSimulation mathId DEFAULT_PARAMS 1 1 0.6 42 :=
  runSimulation_deterministic mathId DEFAULT_PARAMS DEFAULT_PARAMS 1 1 1 1
    0.6 0.6 42 42 rfl rfl rfl rfl rfl

/-!
## C8 — the cumulative welfare series

Each period pushes `cumProviderProfit`, `cumClientLoss` and their difference
onto three parallel series, and `socialWelfare` is the final difference; the
welfare series is therefore the element-wise difference of the other two and
ends at `socialWelfare`.
-/

/-- The per-period accumulator produced by the inner loop, as a function of
the pre-period state. -/
def periodAccOf (M : MathPrims) (params : ProtocolParams) (eq : EquilibriumValues)
    (nJobsPerPeriod : ℕ) (honestFraction : ℚ) (st : SimState) : PeriodAcc :=
  (runJobs M params eq honestFraction st.adaptiveAuditProb
    nJobsPerPeriod (st.inner, initAcc)).2

theorem periodStep_providerProfits (M : MathPrims) (params : ProtocolParams)
    (eq : EquilibriumValues) (nJ : ℕ) (hf : ℚ) (st : SimState) :
    (periodStep M params eq nJ hf st).providerProfits =
      st.providerProfits ++
        [st.cumProviderProfit + (periodAccOf M params eq nJ hf st).periodProviderProfit] := rfl

theorem periodStep_clientLosses (M : MathPrims) (params : ProtocolParams)
    (eq : EquilibriumValues) (nJ : ℕ) (hf : ℚ) (st : SimState) :
    (periodStep M params eq nJ hf st).clientLosses =
      st.clientLosses ++
        [st.cumClientLoss + (periodAccOf M params eq nJ hf st).periodClientLoss] := rfl

theorem periodStep_cumulativeWelfare (M : MathPrims) (params : ProtocolParams)
    (eq : EquilibriumValues) (nJ : ℕ) (hf : ℚ) (st : SimState) :
    (periodStep M params eq nJ hf st).cumulativeWelfare =
      st.cumulativeWelfare ++
        [(st.cumProviderProfit + (periodAccOf M params eq nJ hf st).periodProviderProfit) -
         (st.cumClientLoss + (periodAccOf M params eq nJ hf st).periodClientLoss)] := rfl

theorem periodStep_cumProviderProfit (M : MathPrims) (params : ProtocolParams)
    (eq : EquilibriumValues) (nJ : ℕ) (hf : ℚ) (st : SimState) :
    (periodStep M params eq nJ hf st).cumProviderProfit =
      st.cumProviderProfit + (periodAccOf M params eq nJ hf st).periodProviderProfit := rfl

theorem periodStep_cumClientLoss (M : MathPrims) (params : ProtocolParams)
    (eq : EquilibriumValues) (nJ : ℕ) (hf : ℚ) (st : SimState) :
    (periodStep M params eq nJ hf st).cumClientLoss =
      st.cumClientLoss + (periodAccOf M params eq nJ hf st).periodClientLoss := rfl

/-- Appending one element to each of two equal-length lists appends the
pointwise difference to their `zipWith`. -/
theorem zipWith_sub_snoc (l₁ l₂ : List ℚ) (a b : ℚ) (h : l₁.length = l₂.length) :
    List.zipWith (fun x y => x - y) (l₁ ++ [a]) (l₂ ++ [b]) =
      List.zipWith (fun x y => x - y) l₁ l₂ ++ [a - b] := by
  rw [List.zipWith_append _ _ _ _ _ h]
  rfl

/-- The welfare bookkeeping invariant maintained across periods. -/
def WelfareInv (st : SimState) : Prop :=
  st.providerProfits.length = st.clientLosses.length ∧
  st.cumulativeWelfare =
    List.zipWith (fun x y => x - y) st.providerProfits st.clientLosses ∧
  (st.cumulativeWelfare = [] ∨
    st.cumulativeWelfare.getLast? = some (st.cumProviderProfit - st.cumClientLoss))

theorem periodStep_welfareInv (M : MathPrims) (params : ProtocolParams)
    (eq : EquilibriumValues) (nJ : ℕ) (hf : ℚ) (st : SimState)
    (h : WelfareInv st) : WelfareInv (periodStep M params eq nJ hf st) := by
  obtain ⟨h1, h2, h3⟩ := h
  refine ⟨?_, ?_, Or.inr ?_⟩
  · rw [periodStep_providerProfits, periodStep_clientLosses]
    simp [h1]
  · rw [periodStep_providerProfits, periodStep_clientLosses,
      periodStep_cumulativeWelfare, zipWith_sub_snoc _ _ _ _ h1, h2]
  · rw [periodStep_cumulativeWelfare, periodStep_cumProviderProfit,
      periodStep_cumClientLoss]
    simp

theorem runPeriods_welfareInv (M : MathPrims) (params : ProtocolParams)
    (eq : EquilibriumValues) (nJ : ℕ) (hf : ℚ) (n : ℕ) :
    ∀ st : SimState, WelfareInv st →
      WelfareInv (runPeriods M params eq nJ hf n st) := by
  induction n with
  | zero => intro st h; exact h
  | succ n ih =>
      intro st h
      exact ih (periodStep M params eq nJ hf st)
        (periodStep_welfareInv M params eq nJ hf st h)

theorem runPeriods_series_lengths (M : MathPrims) (params : ProtocolParams)
    (eq : EquilibriumValues) (nJ : ℕ) (hf : ℚ) (n : ℕ) :
    ∀ st : SimState,
      (runPeriods M params eq nJ hf n st).providerProfits.length =
        st.providerProfits.length + n ∧
      (runPeriods M params eq nJ hf n st).clientLosses.length =
        st.clientLosses.length + n ∧
      (runPeriods M params eq nJ hf n st).cumulativeWelfare.length =
        st.cumulativeWelfare.length + n := by
  induction n with
  | zero => intro st; exact ⟨rfl, rfl, rfl⟩
  | succ n ih =>
      intro st
      obtain ⟨i1, i2, i3⟩ := ih (periodStep M params eq nJ hf st)
      refine ⟨?_, ?_, ?_⟩
      · show (runPeriods M params eq nJ hf n (periodStep M params eq nJ hf st)).providerProfits.length = _
        rw [i1, periodStep_providerProfits]
        simp only [List.length_append, List.length_singleton]
        omega
      · show (runPeriods M params eq nJ hf n (periodStep M params eq nJ hf st)).clientLosses.length = _
        rw [i2, periodStep_clientLosses]
        simp only [List.length_append, List.length_singleton]
        omega
      · show (runPeriods M params eq nJ hf n (periodStep M params eq nJ hf st)).cumulativeWelfare.length = _
        rw [i3, periodStep_cumulativeWelfare]
        simp only [List.length_append, List.length_singleton]
        omega

/-- C8: for `nPeriods ≥ 1`, the provider-profit and client-loss series have
one element per period, the cumulative-welfare series is their element-wise
difference, and the returned `socialWelfare` scalar is the final element of
the cumulative-welfare series. -/
theorem cumulativeWelfare_is_profit_minus_loss (M : MathPrims)
    (params : ProtocolParams) (nP nJ : ℕ) (hf : ℚ) (seed : ℤ)
    (h : 1 ≤ nP) :
    (runSimulation M params nP nJ hf seed).providerProfits.length = nP ∧
    (runSimulation M params nP nJ hf seed).clientLosses.length = nP ∧
    (runSimulation M params nP nJ hf seed).cumulativeWelfare =
      List.zipWith (fun x y => x - y)
        (runSimulation M params nP nJ hf seed).providerProfits
        (runSimulation M params nP nJ hf seed).clientLosses ∧
    (runSimulation M params nP nJ hf seed).cumulativeWelfare.getLast? =
      some (runSimulation M params nP nJ hf seed).socialWelfare := by
  obtain ⟨l1, l2, l3⟩ := runPeriods_series_lengths M params (computeEquilibrium params)
    nJ hf nP (initState (computeEquilibrium params) seed)
  obtain ⟨i1, i2, i3⟩ := runPeriods_welfareInv M params (computeEquilibrium params)
    nJ hf nP (initState (computeEquilibrium params) seed) ⟨rfl, rfl, Or.inl rfl⟩
  refine ⟨?_, ?_, i2, ?_⟩
  · show (runPeriods M params (computeEquilibrium params) nJ hf nP
      (initState (computeEquilibrium params) seed)).providerProfits.length = nP
    rw [l1]
    show 0 + nP = nP
    omega
  · show (runPeriods M params (computeEquilibrium params) nJ hf nP
      (initState (computeEquilibrium params) seed)).clientLosses.length = nP
    rw [l2]
    show 0 + nP = nP
    omega
  rcases i3 with hnil | hlast
  · exfalso
    have : (runPeriods M params (computeEquilibrium params) nJ hf nP
        (initState (computeEquilibrium params) seed)).cumulativeWelfare.length = 0 := by
      rw [hnil]; rfl
    rw [l3] at this
    omega
  · exact hlast

/-- Witness for `cumulativeWelfare_is_profit_minus_loss` at a concrete run. -/
theorem cumulativeWelfare_is_profit_minus_loss_witness :
    (runSimulation mathId DEFAULT_PARAMS 1 1 0.6 42).providerProfits.length = 1 ∧
    (runSimulation mathId DEFAULT_PARAMS 1 1 0.6 42).clientLosses.length = 1 ∧
    (runSimulation mathId DEFAULT_PARAMS 1 1 0.6 42).cumulativeWelfare =
      List.zipWith (fun x y => x - y)
        (runSimulation mathId DEFAULT_PARAMS 1 1 0.6 42).providerProfits
        (runSimulation mathId DEFAULT_PARAMS 1 1 0.6 42).clientLosses ∧
    (runSimulation mathId DEFAULT_PARAMS 1 1 0.6 42).cumulativeWelfare.getLast? =
      some (runSimulation mathId DEFAULT_PARAMS 1 1 0.6 42).socialWelfare :=
  cumulativeWelfare_is_profit_minus_loss mathId DEFAULT_PARAMS 1 1 0.6 42
    (le_refl 1)

/-!
## C4 — ranges of the per-period rate series

Fraud rates are counts over `nJobsPerPeriod` jobs and audit rates are
clamped to `[v_min, 1]`, so both always lie in `[0,1]`.  The detection-rate
series, however, is seeded with the *unclamped* equilibrium `v*` when the
first period has no fraud, and `v*` can lie outside `[0,1]` for parameters
that satisfy all of the claim's hypotheses — so the claim fails for the
detection-rate series and holds once `v* ∈ [0,1]` is added as a hypothesis.
-/

/-- `x` lies in the unit interval, as a boolean test. -/
def inUnitClamp (x : ℚ) : Bool :=
  decide (0 ≤ x) && decide (x ≤ 1)

theorem periodStep_fraudRates (M : MathPrims) (params : ProtocolParams)
    (eq : EquilibriumValues) (nJ : ℕ) (hf : ℚ) (st : SimState) :
    (periodStep M params eq nJ hf st).fraudRates =
      st.fraudRates ++
        [((periodAccOf M params eq nJ hf st).periodFrauds : ℚ) / (nJ : ℚ)] := rfl

theorem periodStep_detectionRates (M : MathPrims) (params : ProtocolParams)
    (eq : EquilibriumValues) (nJ : ℕ) (hf : ℚ) (st : SimState) :
    (periodStep M params eq nJ hf st).detectionRates =
      st.detectionRates ++
        [nextDetectionRate eq (periodAccOf M params eq nJ hf st) st.detectionRates] := rfl

theorem periodStep_auditRates (M : MathPrims) (params : ProtocolParams)
    (eq : EquilibriumValues) (nJ : ℕ) (hf : ℚ) (st : SimState) :
    (periodStep M params eq nJ hf st).auditRates =
      st.auditRates ++
        [nextAuditProb M params eq
          (slideWindow st.recentFraudRates
            (((periodAccOf M params eq nJ hf st).periodFrauds : ℚ) / (nJ : ℚ)))
          st.adaptiveAuditProb] := rfl

/-- One job adds at most one period fraud, and preserves
`periodDetected ≤ periodFrauds` (a detection is only ever recorded together
with a fraud). -/
theorem jobStep_acc_bounds (M : MathPrims) (params : ProtocolParams)
    (eq : EquilibriumValues) (hf ap : ℚ) (s : InnerState × PeriodAcc) :
    (jobStep M params eq hf ap s).2.periodFrauds ≤ s.2.periodFrauds + 1 ∧
    (s.2.periodDetected ≤ s.2.periodFrauds →
      (jobStep M params eq hf ap s).2.periodDetected ≤
        (jobStep M params eq hf ap s).2.periodFrauds) := by
  simp only [jobStep]
  repeat' split
  all_goals simp_all
  all_goals omega

theorem runJobs_acc_bounds (M : MathPrims) (params : ProtocolParams)
    (eq : EquilibriumValues) (hf ap : ℚ) (n : ℕ) :
    ∀ s : InnerState × PeriodAcc,
      (runJobs M params eq hf ap n s).2.periodFrauds ≤ s.2.periodFrauds + n ∧
      (s.2.periodDetected ≤ s.2.periodFrauds →
        (runJobs M params eq hf ap n s).2.periodDetected ≤
          (runJobs M params eq hf ap n s).2.periodFrauds) := by
  induction n with
  | zero => intro s; exact ⟨Nat.le_refl _, fun h => h⟩
  | succ n ih =>
      intro s
      obtain ⟨j1, j2⟩ := jobStep_acc_bounds M params eq hf ap s
      obtain ⟨i1, i2⟩ := ih (jobStep M params eq hf ap s)
      constructor
      · show (runJobs M params eq hf ap n (jobStep M params eq hf ap s)).2.periodFrauds ≤ _
        omega
      · intro h
        show (runJobs M params eq hf ap n (jobStep M params eq hf ap s)).2.periodDetected ≤ _
        exact i2 (j2 h)

/-- Over a whole period: at most `nJobsPerPeriod` frauds, and no more
detections than frauds. -/
theorem periodAccOf_bounds (M : MathPrims) (params : ProtocolParams)
    (eq : EquilibriumValues) (nJ : ℕ) (hf : ℚ) (st : SimState) :
    (periodAccOf M params eq nJ hf st).periodFrauds ≤ nJ ∧
    (periodAccOf M params eq nJ hf st).periodDetected ≤
      (periodAccOf M params eq nJ hf st).periodFrauds := by
  obtain ⟨h1, h2⟩ := runJobs_acc_bounds M params eq hf st.adaptiveAuditProb nJ
    (st.inner, initAcc)
  constructor
  · simpa [periodAccOf, initAcc] using h1
  · exact h2 (Nat.le_refl 0)

/-- The three rate series consist of unit-interval values. -/
def RatesOK (st : SimState) : Prop :=
  (∀ x ∈ st.fraudRates, 0 ≤ x ∧ x ≤ 1) ∧
  (∀ x ∈ st.detectionRates, 0 ≤ x ∧ x ≤ 1) ∧
  (∀ x ∈ st.auditRates, 0 ≤ x ∧ x ≤ 1)

theorem periodStep_ratesOK (M : MathPrims) (params : ProtocolParams)
    (eq : EquilibriumValues) (nJ : ℕ) (hf : ℚ) (st : SimState)
    (hvmin0 : 0 ≤ params.v_min) (hvmin1 : params.v_min ≤ 1) (hnJ : 1 ≤ nJ)
    (hv0 : 0 ≤ eq.v_star) (hv1 : eq.v_star ≤ 1)
    (h : RatesOK st) : RatesOK (periodStep M params eq nJ hf st) := by
  obtain ⟨hF, hD, hA⟩ := h
  obtain ⟨hfr, hdet⟩ := periodAccOf_bounds M params eq nJ hf st
  have hnJQ : (0 : ℚ) < (nJ : ℚ) := by exact_mod_cast hnJ
  refine ⟨?_, ?_, ?_⟩
  · rw [periodStep_fraudRates]
    intro x hx
    rcases List.mem_append.mp hx with hx | hx
    · exact hF x hx
    · have hx1 : x = ((periodAccOf M params eq nJ hf st).periodFrauds : ℚ) / (nJ : ℚ) := by
        simpa using hx
      subst hx1
      constructor
      · positivity
      · rw [div_le_one hnJQ]
        exact_mod_cast hfr
  · rw [periodStep_detectionRates]
    intro x hx
    rcases List.mem_append.mp hx with hx | hx
    · exact hD x hx
    · have hx1 : x = nextDetectionRate eq (periodAccOf M params eq nJ hf st)
          st.detectionRates := by simpa using hx
      subst hx1
      unfold nextDetectionRate
      split
      · rename_i hpos
        have hposQ : (0 : ℚ) < ((periodAccOf M params eq nJ hf st).periodFrauds : ℚ) := by
          exact_mod_cast hpos
        constructor
        · positivity
        · rw [div_le_one hposQ]
          exact_mod_cast hdet
      · cases hts : st.detectionRates.getLast? with
        | some d =>
            have hmem : d ∈ st.detectionRates := List.mem_of_mem_getLast? hts
            simpa [hts] using hD d hmem
        | none => simpa [hts] using ⟨hv0, hv1⟩
  · rw [periodStep_auditRates]
    intro x hx
    rcases List.mem_append.mp hx with hx | hx
    · exact hA x hx
    · have hx1 : x = nextAuditProb M params eq
          (slideWindow st.recentFraudRates
            (((periodAccOf M params eq nJ hf st).periodFrauds : ℚ) / (nJ : ℚ)))
          st.adaptiveAuditProb := by simpa using hx
      subst hx1
      unfold nextAuditProb
      constructor
      · exact le_trans hvmin0 (le_max_left _ _)
      · exact max_le hvmin1 (min_le_left _ _)

theorem runPeriods_ratesOK (M : MathPrims) (params : ProtocolParams)
    (eq : EquilibriumValues) (nJ : ℕ) (hf : ℚ)
    (hvmin0 : 0 ≤ params.v_min) (hvmin1 : params.v_min ≤ 1) (hnJ : 1 ≤ nJ)
    (hv0 : 0 ≤ eq.v_star) (hv1 : eq.v_star ≤ 1) (n : ℕ) :
    ∀ st : SimState, RatesOK st → RatesOK (runPeriods M params eq nJ hf n st) := by
  induction n with
  | zero => intro st h; exact h
  | succ n ih =>
      intro st h
      exact ih (periodStep M params eq nJ hf st)
        (periodStep_ratesOK M params eq nJ hf st hvmin0 hvmin1 hnJ hv0 hv1 h)

/-- C4 amended: under the claim's hypotheses (non-negative fields,
probability fields in `[0,1]`, at least one period and one job per period,
honest fraction in `[0,1]`, any seed) *plus* the additional necessary
hypothesis that the unclamped equilibrium `v*` lies in `[0,1]`, every element
of the `fraudRates`, `detectionRates` and `auditRates` series lies in
`[0,1]`.  Without the extra hypothesis the detection-rate series can escape
the interval (see the counterexample). -/
theorem runSimulation_rates_unit_interval (M : MathPrims)
    (params : ProtocolParams) (nP nJ : ℕ) (hf : ℚ) (seed : ℤ)
    (hnn : NonnegParams params) (hpp : ProbParams params)
    (_hnP : 1 ≤ nP) (hnJ : 1 ≤ nJ) (_hhf0 : 0 ≤ hf) (_hhf1 : hf ≤ 1)
    (hv0 : 0 ≤ computeVStar params) (hv1 : computeVStar params ≤ 1) :
    (runSimulation M params nP nJ hf seed).fraudRates.all inUnitClamp = true ∧
    (runSimulation M params nP nJ hf seed).detectionRates.all inUnitClamp = true ∧
    (runSimulation M params nP nJ hf seed).auditRates.all inUnitClamp = true := by
  obtain ⟨-, -, -, -, -, -, -, -, -, -, -, -, hvmin0⟩ := hnn
  obtain ⟨-, -, -, hvmin1⟩ := hpp
  have key := runPeriods_ratesOK M params (computeEquilibrium params) nJ hf
    hvmin0 hvmin1 hnJ hv0 hv1 nP (initState (computeEquilibrium params) seed)
    ⟨by simp [initState], by simp [initState], by simp [initState]⟩
  obtain ⟨hF, hD, hA⟩ := key
  refine ⟨?_, ?_, ?_⟩
  · rw [List.all_eq_true]
    intro x hx
    have hb := hF x hx
    simp [inUnitClamp, hb.1, hb.2]
  · rw [List.all_eq_true]
    intro x hx
    have hb := hD x hx
    simp [inUnitClamp, hb.1, hb.2]
  · rw [List.all_eq_true]
    intro x hx
    have hb := hA x hx
    simp [inUnitClamp, hb.1, hb.2]

/-- Witness for `runSimulation_rates_unit_interval` at a concrete run with
the default parameters. -/
theorem runSimulation_rates_unit_interval_witness :
    (runSimulation mathId DEFAULT_PARAMS 1 1 0.6 42).fraudRates.all inUnitClamp = true ∧
    (runSimulation mathId DEFAULT_PARAMS 1 1 0.6 42).detectionRates.all inUnitClamp = true ∧
    (runSimulation mathId DEFAULT_PARAMS 1 1 0.6 42).auditRates.all inUnitClamp = true :=
  runSimulation_rates_unit_interval mathId DEFAULT_PARAMS 1 1 0.6 42
    (by norm_num [NonnegParams, DEFAULT_PARAMS])
    (by norm_num [ProbParams, DEFAULT_PARAMS])
    (le_refl 1) (le_refl 1) (by norm_num) (by norm_num)
    (by norm_num [computeVStar, computeTheta, DEFAULT_PARAMS])
    (by norm_num [computeVStar, computeTheta, DEFAULT_PARAMS])

/-- Default parameters with the honest cost below the cheating cost: the
incentive threshold (and hence `v*`) is negative. -/
def negThetaParams : ProtocolParams :=
  { DEFAULT_PARAMS with c_H := 0, c_F := 1 }

/-- A job whose provider-type draw comes out honest takes the
honest-execution branch: no fraud, no detection, profit `P_set - c_H`,
reputation nudged up. -/
theorem jobStep_honest (M : MathPrims) (params : ProtocolParams)
    (eq : EquilibriumValues) (hf ap : ℚ) (st : InnerState) (acc : PeriodAcc)
    (h : rngVal (rngNextSeed st.seed) < hf) :
    jobStep M params eq hf ap (st, acc) =
      ({ seed := rngNextSeed st.seed, totalJobs := st.totalJobs + 1,
         totalFrauds := st.totalFrauds, totalDetected := st.totalDetected,
         avgReputation := min 100 (st.avgReputation + 0.1) },
       { periodFrauds := acc.periodFrauds, periodDetected := acc.periodDetected,
         periodAudits := acc.periodAudits,
         periodProviderProfit := acc.periodProviderProfit + (params.P_set - params.c_H),
         periodClientLoss := acc.periodClientLoss }) := by
  simp [jobStep, h]

/-- C4 counterexample: `negThetaParams` satisfies every hypothesis of the
claim (all fields non-negative, probability fields in `[0,1]`), and with one
period of one job whose provider is honest (`honestFraction = 1`, seed 42)
the period has no fraud, so the recorded detection rate is the equilibrium
`v* = (0 - 1)/150 = -1/150 < 0`, outside `[0,1]`. -/
theorem detectionRates_escape_unit_interval :
    NonnegParams negThetaParams ∧ ProbParams negThetaParams ∧
    (runSimulation mathId negThetaParams 1 1 1 42).detectionRates = [-(1/150)] ∧
    ¬ (0 ≤ (-(1/150) : ℚ)) := by
  refine ⟨?_, ?_, ?_, ?_⟩
  · norm_num [NonnegParams, negThetaParams, DEFAULT_PARAMS]
  · norm_num [ProbParams, negThetaParams, DEFAULT_PARAMS]
  · have hdraw : rngVal (rngNextSeed (42 : ℤ)) < 1 := by
      norm_num [rngVal, rngNextSeed]
    have hacc : (periodAccOf mathId negThetaParams (computeEquilibrium negThetaParams)
        1 1 (initState (computeEquilibrium negThetaParams) 42)).periodFrauds = 0 := by
      have hjob := jobStep_honest mathId negThetaParams
        (computeEquilibrium negThetaParams) 1
        (initState (computeEquilibrium negThetaParams) 42).adaptiveAuditProb
        (initState (computeEquilibrium negThetaParams) 42).inner initAcc
        (by exact hdraw)
      show (jobStep mathId negThetaParams (computeEquilibrium negThetaParams) 1
        (initState (computeEquilibrium negThetaParams) 42).adaptiveAuditProb
        ((initState (computeEquilibrium negThetaParams) 42).inner, initAcc)).2.periodFrauds = 0
      rw [hjob]
      rfl
    have hrw : (runSimulation mathId negThetaParams 1 1 1 42).detectionRates =
        [nextDetectionRate (computeEquilibrium negThetaParams)
          (periodAccOf mathId negThetaParams (computeEquilibrium negThetaParams)
            1 1 (initState (computeEquilibrium negThetaParams) 42))
          []] := rfl
    rw [hrw]
    unfold nextDetectionRate
    rw [hacc]
    have hveq : (computeEquilibrium negThetaParams).v_star = computeVStar negThetaParams := rfl
    norm_num [hveq]
    norm_num [computeVStar, computeTheta, negThetaParams, DEFAULT_PARAMS]
  · norm_num

/-!
## C7 — sensitivity analysis

`sensitivityAnalysis` substitutes each scalar of `values` into a copy of
`baseParams` at the named field, recomputes the equilibrium, and collects
four output series aligned by index with `values`.  In this embedding the
parameter record is immutable by construction (each iteration builds a fresh
record), which is the counterpart of the source's spread-copy
`{...baseParams, [paramName]: value}`.
-/

/-- The thirteen field names of `ProtocolParams` (`keyof ProtocolParams`). -/
inductive ParamField where
  | S_P
  | P_set
  | c_H
  | c_F
  | C_safe
  | c_proof
  | c_tx
  | beta
  | lambda
  | p_w
  | B_C
  | L
  | v_min
deriving DecidableEq

/-- `{...baseParams, [paramName]: value}`: a copy of `p` with the named
field replaced by `v`. -/
def setParam (p : ProtocolParams) (f : ParamField) (v : ℚ) : ProtocolParams :=
  match f with
  | ParamField.S_P => { p with S_P := v }
  | ParamField.P_set => { p with P_set := v }
  | ParamField.c_H => { p with c_H := v }
  | ParamField.c_F => { p with c_F := v }
  | ParamField.C_safe => { p with C_safe := v }
  | ParamField.c_proof => { p with c_proof := v }
  | ParamField.c_tx => { p with c_tx := v }
  | ParamField.beta => { p with beta := v }
  | ParamField.lambda => { p with lambda := v }
  | ParamField.p_w => { p with p_w := v }
  | ParamField.B_C => { p with B_C := v }
  | ParamField.L => { p with L := v }
  | ParamField.v_min => { p with v_min := v }

/-- The record returned by `sensitivityAnalysis`. -/
structure SensitivityResult where
  values : List ℚ
  q_star : List ℚ
  v_star : List ℚ
  Delta : List ℚ
  S_P_min : List ℚ
deriving DecidableEq

/-- The `for (const value of values)` loop of `sensitivityAnalysis`: for each
value, recompute the equilibrium on the substituted copy and push the four
fields. -/
def sensitivityLoop (baseParams : ProtocolParams) (paramName : ParamField) :
    List ℚ → SensitivityResult → SensitivityResult
  | [], results => results
  | value :: rest, results =>
      let params := setParam baseParams paramName value
      let eq := computeEquilibrium params
      sensitivityLoop baseParams paramName rest
        { results with
          q_star := results.q_star ++ [eq.q_star]
          v_star := results.v_star ++ [eq.v_star]
          Delta := results.Delta ++ [eq.Delta]
          S_P_min := results.S_P_min ++ [eq.S_P_min] }

/-- `sensitivityAnalysis` from `simulation.ts`. -/
def sensitivityAnalysis (baseParams : ProtocolParams) (paramName : ParamField)
    (values : List ℚ) : SensitivityResult :=
  sensitivityLoop baseParams paramName values
    { values := values, q_star := [], v_star := [], Delta := [], S_P_min := [] }

theorem sensitivityLoop_eq (baseParams : ProtocolParams) (paramName : ParamField) :
    ∀ (vs : List ℚ) (r : SensitivityResult),
      sensitivityLoop baseParams paramName vs r =
        { values := r.values
          q_star := r.q_star ++
            vs.map (fun v => (computeEquilibrium (setParam baseParams paramName v)).q_star)
          v_star := r.v_star ++
            vs.map (fun v => (computeEquilibrium (setParam baseParams paramName v)).v_star)
          Delta := r.Delta ++
            vs.map (fun v => (computeEquilibrium (setParam baseParams paramName v)).Delta)
          S_P_min := r.S_P_min ++
            vs.map (fun v => (computeEquilibrium (setParam baseParams paramName v)).S_P_min) } := by
  intro vs
  induction vs with
  | nil => intro r; simp [sensitivityLoop]
  | cons v rest ih =>
      intro r
      rw [sensitivityLoop, ih]
      simp

/-- C7: the four output series of `sensitivityAnalysis` have the same length
as the input `values` list, the `values` field is returned unchanged, and the
`i`-th element of each series is the corresponding field of
`computeEquilibrium` applied to `baseParams` with the named field replaced by
`values[i]`.  (`baseParams` itself is never modified: the embedding is pure,
matching the source's spread-copy.) -/
theorem sensitivityAnalysis_pointwise (baseParams : ProtocolParams)
    (paramName : ParamField) (values : List ℚ) :
    (sensitivityAnalysis baseParams paramName values).values = values ∧
    (sensitivityAnalysis baseParams paramName values).q_star.length = values.length ∧
    (sensitivityAnalysis baseParams paramName values).v_star.length = values.length ∧
    (sensitivityAnalysis baseParams paramName values).Delta.length = values.length ∧
    (sensitivityAnalysis baseParams paramName values).S_P_min.length = values.length ∧
    ∀ (i : ℕ) (v : ℚ), values[i]? = some v →
      (sensitivityAnalysis baseParams paramName values).q_star[i]? =
        some (computeEquilibrium (setParam baseParams paramName v)).q_star ∧
      (sensitivityAnalysis baseParams paramName values).v_star[i]? =
        some (computeEquilibrium (setParam baseParams paramName v)).v_star ∧
      (sensitivityAnalysis baseParams paramName values).Delta[i]? =
        some (computeEquilibrium (setParam baseParams paramName v)).Delta ∧
      (sensitivityAnalysis baseParams paramName values).S_P_min[i]? =
        some (computeEquilibrium (setParam baseParams paramName v)).S_P_min := by
  unfold sensitivityAnalysis
  rw [sensitivityLoop_eq]
  refine ⟨rfl, by simp, by simp, by simp, by simp, ?_⟩
  intro i v hv
  refine ⟨?_, ?_, ?_, ?_⟩ <;> simp [List.getElem?_map, hv]

/-- Witness for `sensitivityAnalysis_pointwise` at a concrete input. -/
theorem sensitivityAnalysis_pointwise_witness :
    (sensitivityAnalysis DEFAULT_PARAMS ParamField.S_P [5]).q_star[0]? =
      some (computeEquilibrium (setParam DEFAULT_PARAMS ParamField.S_P 5)).q_star :=
  ((sensitivityAnalysis_pointwise DEFAULT_PARAMS ParamField.S_P [5]).2.2.2.2.2
    0 5 rfl).1

/-!
## C9 — attack severity classification
-/

/-- The five attack scenario types (`AttackType` in the source). -/
inductive AttackType where
  | reputation_farming
  | no_stake_floor
  | sybil
  | collusion
  | censorship
deriving DecidableEq

/-- The severity buckets of `AttackResult`. -/
inductive Severity where
  | low
  | medium
  | high
  | critical
deriving DecidableEq

/-- The record returned by `simulateAttack` (`AttackResult` in the source). -/
structure AttackResult where
  name : String
  description : String
  baselineFraudRate : ℚ
  attackFraudRate : ℚ
  fraudRateChange : ℚ
  welfareLoss : ℚ
  attackerProfit : ℚ
  severity : Severity

/-- `simulateAttack` from `simulation.ts` (source default: `nPeriods = 100`):
one baseline run (`honestFraction = 0.6`, seed 42), one run with the attack's
transformed parameters and honest fraction (seed 43), both with 20 jobs per
period; welfare loss is thresholded into a severity bucket and attacker
profit is approximated as `welfareLoss * 0.4`. -/
def simulateAttack (M : MathPrims) (params : ProtocolParams)
    (attackType : AttackType) (nPeriods : ℕ) : AttackResult :=
  let baselineResult := runSimulation M params nPeriods 20 0.6 42
  let attackParams : ProtocolParams :=
    match attackType with
    | AttackType.reputation_farming => params
    | AttackType.no_stake_floor => { params with S_P := 5 }
    | AttackType.sybil => params
    | AttackType.collusion => { params with C_safe := params.C_safe * 2 }
    | AttackType.censorship => { params with p_w := params.p_w * 0.7 }
  let attackHonestFraction : ℚ :=
    match attackType with
    | AttackType.reputation_farming => 0.4
    | AttackType.no_stake_floor => 0.6
    | AttackType.sybil => 0.3
    | AttackType.collusion => 0.4
    | AttackType.censorship => 0.6
  let name : String :=
    match attackType with
    | AttackType.reputation_farming => "Reputation Farming"
    | AttackType.no_stake_floor => "No Stake Floor"
    | AttackType.sybil => "Sybil Attack"
    | AttackType.collusion => "Collusion"
    | AttackType.censorship => "Censorship Attack"
  let description : String :=
    match attackType with
    | AttackType.reputation_farming =>
        "Attacker builds reputation with honest behavior, then exploits reduced auditing"
    | AttackType.no_stake_floor =>
        "Minimal stake when floor not enforced, reducing slashing penalty"
    | AttackType.sybil =>
        "Multiple identities spread risk and dilute reputation penalties"
    | AttackType.collusion =>
        "Provider-client coordination to avoid auditing"
    | AttackType.censorship =>
        "Blocking dispute transactions reduces enforcement probability"
  let attackResult := runSimulation M attackParams nPeriods 20 attackHonestFraction 43
  let fraudRateChange := attackResult.finalFraudRate - baselineResult.finalFraudRate
  let welfareLoss := baselineResult.socialWelfare - attackResult.socialWelfare
  let severity :=
    if welfareLoss > 5000 then Severity.critical
    else if welfareLoss > 2000 then Severity.high
    else if welfareLoss > 500 then Severity.medium
    else Severity.low
  { name := name
    description := description
    baselineFraudRate := baselineResult.finalFraudRate
    attackFraudRate := attackResult.finalFraudRate
    fraudRateChange := fraudRateChange
    welfareLoss := welfareLoss
    attackerProfit := welfareLoss * 0.4
    severity := severity }

/-- The severity if-chain is a step function with strict thresholds: each
bucket characterizes an interval of welfare losses, with boundary values
falling in the lower bucket. -/
theorem severityOf_spec (wl : ℚ) :
    ((if wl > 5000 then Severity.critical
      else if wl > 2000 then Severity.high
      else if wl > 500 then Severity.medium
      else Severity.low) = Severity.critical ↔ wl > 5000) ∧
    ((if wl > 5000 then Severity.critical
      else if wl > 2000 then Severity.high
      else if wl > 500 then Severity.medium
      else Severity.low) = Severity.high ↔ (2000 < wl ∧ wl ≤ 5000)) ∧
    ((if wl > 5000 then Severity.critical
      else if wl > 2000 then Severity.high
      else if wl > 500 then Severity.medium
      else Severity.low) = Severity.medium ↔ (500 < wl ∧ wl ≤ 2000)) ∧
    ((if wl > 5000 then Severity.critical
      else if wl > 2000 then Severity.high
      else if wl > 500 then Severity.medium
      else Severity.low) = Severity.low ↔ wl ≤ 500) := by
  by_cases h1 : wl > 5000 <;> by_cases h2 : wl > 2000 <;> by_cases h3 : wl > 500 <;>
    simp only [h1, h2, h3, if_true, if_false] <;>
    refine ⟨?_, ?_, ?_, ?_⟩ <;>
    simp <;>
    linarith

/-- C9: `simulateAttack`'s severity is a pure step function of its welfare
loss with strict thresholds — `critical` iff loss > 5000, `high` iff
2000 < loss ≤ 5000, `medium` iff 500 < loss ≤ 2000, `low` iff loss ≤ 500 —
and its attacker profit is exactly `0.4` times its welfare loss. -/
theorem simulateAttack_severity_step_function (M : MathPrims)
    (params : ProtocolParams) (attackType : AttackType) (nPeriods : ℕ) :
    ((simulateAttack M params attackType nPeriods).severity = Severity.critical ↔
      (simulateAttack M params attackType nPeriods).welfareLoss > 5000) ∧
    ((simulateAttack M params attackType nPeriods).severity = Severity.high ↔
      (2000 < (simulateAttack M params attackType nPeriods).welfareLoss ∧
       (simulateAttack M params attackType nPeriods).welfareLoss ≤ 5000)) ∧
    ((simulateAttack M params attackType nPeriods).severity = Severity.medium ↔
      (500 < (simulateAttack M params attackType nPeriods).welfareLoss ∧
       (simulateAttack M params attackType nPeriods).welfareLoss ≤ 2000)) ∧
    ((simulateAttack M params attackType nPeriods).severity = Severity.low ↔
      (simulateAttack M params attackType nPeriods).welfareLoss ≤ 500) ∧
    (simulateAttack M params attackType nPeriods).attackerProfit =
      0.4 * (simulateAttack M params attackType nPeriods).welfareLoss := by
  have hsev : (simulateAttack M params attackType nPeriods).severity =
      (if (simulateAttack M params attackType nPeriods).welfareLoss > 5000
        then Severity.critical
       else if (simulateAttack M params attackType nPeriods).welfareLoss > 2000
        then Severity.high
       else if (simulateAttack M params attackType nPeriods).welfareLoss > 500
        then Severity.medium
       else Severity.low) := rfl
  have hprof : (simulateAttack M params attackType nPeriods).attackerProfit =
      (simulateAttack M params attackType nPeriods).welfareLoss * 0.4 := rfl
  obtain ⟨c1, c2, c3, c4⟩ :=
    severityOf_spec ((simulateAttack M params attackType nPeriods).welfareLoss)
  rw [hsev, hprof]
  exact ⟨c1, c2, c3, c4, mul_comm _ _⟩
